import Mathlib

/-!
Verification of the scene clipboard of PyFlow
(`pyflow/scene/clipboard.py`): cut/copy/paste of a selected subgraph,
edge filtering on partial selections, clipboard storage, bounding-box
centering and identity rebinding on paste.

Coordinates are modelled as rationals, Python object identity of blocks,
sockets and edges as `Nat` ids, and the mutable `SceneClipboard` and
`Scene` state as explicit state records.  Python exceptions (KeyError on
an unresolvable rebind reference, ValueError of `min` on an empty
sequence) are modelled by `Option`: `none` is an escaping exception.
-/

namespace PyFlow

/-- A socket (connection point) of a block, identified by its id. -/
structure Socket where
  id : Nat
deriving DecidableEq, Repr

/-- A live block of the scene: id, input/output sockets, position and size. -/
structure Block where
  id : Nat
  sockets_in : List Socket
  sockets_out : List Socket
  position : ℚ × ℚ
  width : ℚ
  height : ℚ
deriving DecidableEq, Repr

/-- A live edge of the scene, between a source and a destination socket. -/
structure Edge where
  id : Nat
  source_socket : Socket
  destination_socket : Socket
deriving DecidableEq, Repr

/-- Serialized block data: the wire shape of spec §6
(`id`, `position`, `width`, `height`, socket records). -/
structure BlockData where
  id : Nat
  sockets_in : List Nat
  sockets_out : List Nat
  position : ℚ × ℚ
  width : ℚ
  height : ℚ
deriving DecidableEq, Repr

/-- Serialized edge data (`id`, `source_socket`, `destination_socket`). -/
structure EdgeData where
  id : Nat
  source_socket : Nat
  destination_socket : Nat
deriving DecidableEq, Repr

/-- Modelled from the spec: `Block.serialize` (defined outside the clipboard
module) produces the data-only record of the payload wire shape of §6. -/
def Block.serialize (b : Block) : BlockData :=
  { id := b.id
    sockets_in := b.sockets_in.map Socket.id
    sockets_out := b.sockets_out.map Socket.id
    position := b.position
    width := b.width
    height := b.height }

/-- Modelled from the spec: `Edge.serialize` (defined in `pyflow/core/edge.py`,
outside the clipboard module) records the edge id and its endpoint socket ids. -/
def Edge.serialize (e : Edge) : EdgeData :=
  { id := e.id
    source_socket := e.source_socket.id
    destination_socket := e.destination_socket.id }

/-- The clipboard payload: the `OrderedDict` with keys `blocks` and `edges`
built by `_serializeSelected`. -/
structure ClipboardData where
  blocks : List BlockData
  edges : List EdgeData
deriving DecidableEq, Repr

/-- The Scene collaborator state: its blocks, edges, the current selection
(ids of selected blocks and edges), the pointer position reported by the
view (`view.lastMousePos`), a counter generating fresh identities, and the
history checkpoints `(label, set_modified)` emitted so far. -/
structure Scene where
  blocks : List Block
  edges : List Edge
  selectedBlocks : List Nat
  selectedEdges : List Nat
  mousePos : ℚ × ℚ
  nextId : Nat
  history : List (String × Bool)
deriving DecidableEq, Repr

/-- Modelled from the spec: `Scene.sortedSelectedItems` is the order-stable
query of the currently selected blocks and edges (§6 `selectedItems`); it
returns fresh lists built from the scene, not references into it. -/
def Scene.sortedSelectedItems (s : Scene) : List Block × List Edge :=
  (s.blocks.filter (fun b => s.selectedBlocks.contains b.id),
   s.edges.filter (fun e => s.selectedEdges.contains e.id))

/-- Modelled from the spec: `view.deleteSelected` (§6 `deleteSelectedItems`)
removes the currently selected blocks and edges from the scene and leaves
nothing selected. -/
def Scene.deleteSelected (s : Scene) : Scene :=
  { s with
    blocks := s.blocks.filter (fun b => !s.selectedBlocks.contains b.id)
    edges := s.edges.filter (fun e => !s.selectedEdges.contains e.id)
    selectedBlocks := []
    selectedEdges := [] }

/-- `Scene.clearSelection`: deselect everything. -/
def Scene.clearSelection (s : Scene) : Scene :=
  { s with selectedBlocks := [], selectedEdges := [] }

/-- Lookup in the rebinding hashmap (old id to new id); a Python `dict` is
last-write-wins, so the last matching entry is taken. -/
def hmGet (hm : List (Nat × Nat)) (k : Nat) : Option Nat :=
  (hm.reverse.find? (fun p => p.1 == k)).map (fun p => p.2)

/-- Modelled from the spec: `Scene.create_block(data, hashmap, restore_id)`
(§6 `createNode`) creates a block in the scene from serialized data; with
`restore_id = false` the block and all its sockets receive freshly generated
identities from the scene's id source, and the hashmap records each
serialized socket id against the corresponding new socket id. -/
def Scene.create_block (s : Scene) (data : BlockData) (hm : List (Nat × Nat))
    ( restore_id : Bool) : Block × Scene × List (Nat × Nat) :=
  let oldSockets := data.sockets_in ++ data.sockets_out
  let n := oldSockets.length
  let bid := if restore_id then data.id else s.nextId
  let newIds := if restore_id then oldSockets
                else (List.range n).map (fun k => s.nextId + 1 + k)
  let block : Block :=
    { id := bid
      sockets_in := (newIds.take data.sockets_in.length).map Socket.mk
      sockets_out := (newIds.drop data.sockets_in.length).map Socket.mk
      position := data.position
      width := data.width
      height := data.height }
  let s1 := { s with
    blocks := s.blocks ++ [block]
    nextId := if restore_id then s.nextId else s.nextId + 1 + n }
  (block, s1, hm ++ oldSockets.zip newIds)

/-- The whole mutable state of `SceneClipboard`: the scene reference and
`self.objects`, plus the warnings emitted through `warnings.warn`. -/
structure ClipState where
  scene : Scene
  objects : Option ClipboardData
  warnings : List String
deriving DecidableEq, Repr

namespace SceneClipboard

/-- The CPython `for edge in selected_edges: ... selected_edges.remove(edge)`
loop of `_serializeSelected`.  The list iterator keeps an index: fetching the
element at index `i` advances the index to `i + 1`; `list.remove` deletes the
first occurrence of the element, shifting later elements down, so the element
that slides into slot `i` is never visited.  `fuel` bounds the number of
iterations; the loop runs at most `lst.length` iterations because the index
grows by one per iteration and the list never grows, so calling with
`fuel = lst.length` realizes the exact loop semantics. -/
def pyFilterRemoveLoop (bad : Edge → Bool) : Nat → Nat → List Edge → List Edge
  | 0, _, lst => lst
  | fuel + 1, i, lst =>
    if h : i < lst.length then
      let e := lst.get ⟨i, h⟩
      pyFilterRemoveLoop bad fuel (i + 1) (if bad e then lst.erase e else lst)
    else lst

/-- `SceneClipboard._serializeSelected`: query the selection, gather the
selected sockets, filter (in place, while iterating) the edges not fully
connected to selected sockets, build the payload, and — when `delete` —
remove the selected items from the scene (after the payload is built). -/
def _serializeSelected (st : ClipState) (delete : Bool) : ClipboardData × ClipState :=
  let sel := st.scene.sortedSelectedItems
  let selected_blocks := sel.1
  let selected_edges := sel.2
  let selected_sockets :=
    (selected_blocks.map (fun b => b.sockets_in ++ b.sockets_out)).flatten.map Socket.id
  let filtered_edges :=
    pyFilterRemoveLoop
      (fun e => !(selected_sockets.contains e.source_socket.id) ||
                !(selected_sockets.contains e.destination_socket.id))
      selected_edges.length 0 selected_edges
  let data : ClipboardData :=
    { blocks := selected_blocks.map Block.serialize
      edges := filtered_edges.map Edge.serialize }
  let st1 := if delete then { st with scene := st.scene.deleteSelected } else st
  (data, st1)

/-- `SceneClipboard._find_bbox_center`: `min`/`max` of the serialized block
positions and extents; Python's `min` on an empty sequence raises, modelled
as `none`. -/
def _find_bbox_center (blocks_data : List BlockData) : Option (ℚ × ℚ) :=
  match blocks_data with
  | [] => none
  | b :: bs =>
    let xmin := (bs.map (fun x => x.position.1)).foldl min b.position.1
    let xmax := (bs.map (fun x => x.position.1 + x.width)).foldl max
      (b.position.1 + b.width)
    let ymin := (bs.map (fun x => x.position.2)).foldl min b.position.2
    let ymax := (bs.map (fun x => x.position.2 + x.height)).foldl max
      (b.position.2 + b.height)
    some ((xmin + xmax) / 2, (ymin + ymax) / 2)

/-- One iteration of the block-creation loop of `_deserializeData`:
`create_block(block_data, hashmap, restore_id=False)`, then
`block.setSelected(True)` when requested, then
`block.setPos(block.x() + offset_x, block.y() + offset_y)`.  The `setPos`
mutates the block object just appended by `create_block`, i.e. the last
entry of the scene's block list. -/
def createOneBlock (off : ℚ × ℚ) (set_selected : Bool)
    (acc : Scene × List (Nat × Nat)) (block_data : BlockData) :
    Scene × List (Nat × Nat) :=
  let r := acc.1.create_block block_data acc.2 false
  let block := r.1
  let s1 := r.2.1
  let hm1 := r.2.2
  let s2 := { s1 with
    selectedBlocks := if set_selected then s1.selectedBlocks ++ [block.id]
                      else s1.selectedBlocks }
  let block2 := { block with
    position := (block.position.1 + off.1, block.position.2 + off.2) }
  let s3 := { s2 with blocks := s2.blocks.dropLast ++ [block2] }
  (s3, hm1)

/-- One iteration of the edge-creation loop of `_deserializeData`.
Modelled from the spec for the parts outside the clipboard module:
`Edge()` plus `edge.deserialize(edge_data, hashmap, restore_id=False)`
gives the new edge a freshly generated identity and resolves its endpoints
by looking the serialized socket ids up in the rebinding map (an
unresolvable reference is an escaping error, `none`); then
`edge.setSelected(True)` when requested, `scene.addItem(edge)`, and
`hashmap.update` with the serialized edge id against the new edge. -/
def createOneEdge (set_selected : Bool)
    (acc : Option (Scene × List (Nat × Nat))) (edge_data : EdgeData) :
    Option (Scene × List (Nat × Nat)) :=
  match acc with
  | none => none
  | some (s, hm) =>
    match hmGet hm edge_data.source_socket, hmGet hm edge_data.destination_socket with
    | some src, some dst =>
      let edge : Edge :=
        { id := s.nextId, source_socket := ⟨src⟩, destination_socket := ⟨dst⟩ }
      let s1 := { s with nextId := s.nextId + 1 }
      let s2 := { s1 with
        selectedEdges := if set_selected then s1.selectedEdges ++ [edge.id]
                         else s1.selectedEdges }
      let s3 := { s2 with edges := s2.edges ++ [edge] }
      some (s3, hm ++ [(edge_data.id, edge.id)])
    | _, _ => none

/-- `SceneClipboard._deserializeData`: no-op on `None`; otherwise clear the
selection (when `set_selected`), find the bbox center of the payload blocks,
compute the pointer offset, create all blocks, then all edges, and emit one
history checkpoint. -/
def _deserializeData (st : ClipState) (data : Option ClipboardData)
    (set_selected : Bool) : Option ClipState :=
  match data with
  | none => some st
  | some d =>
    let scene0 := st.scene
    let mouse_pos := scene0.mousePos
    let scene1 := if set_selected then scene0.clearSelection else scene0
    match _find_bbox_center d.blocks with
    | none => none
    | some c =>
      let off := (mouse_pos.1 - c.1, mouse_pos.2 - c.2)
      let r := d.blocks.foldl (createOneBlock off set_selected)
        (scene1, ([] : List (Nat × Nat)))
      match d.edges.foldl (createOneEdge set_selected) (some r) with
      | none => none
      | some r2 =>
        some { st with scene :=
          { r2.1 with history :=
              r2.1.history ++ [("Desiralized elements into scene", true)] } }

/-- `SceneClipboard._store`: reject (collapse to absent) a payload without a
non-empty `blocks` sequence, store any other payload wholesale.  (In the
typed model the `blocks` key is always present, so only emptiness decides.) -/
def _store (st : ClipState) (data : ClipboardData) : ClipState :=
  if data.blocks.isEmpty then { st with objects := none }
  else { st with objects := some data }

/-- `SceneClipboard._gatherData`: warn when nothing is stored, then return
`self.objects` unchanged. -/
def _gatherData (st : ClipState) : Option ClipboardData × ClipState :=
  let st1 := if st.objects.isNone
             then { st with warnings := st.warnings ++ ["No object is loaded"] }
             else st
  (st1.objects, st1)

/-- `SceneClipboard.cut`: `self._store(self._serializeSelected(delete=True))` —
the argument is evaluated first (serialization including the deletion), then
the store runs. -/
def cut (st : ClipState) : ClipState :=
  let r := _serializeSelected st true
  _store r.2 r.1

/-- `SceneClipboard.copy`: `self._store(self._serializeSelected(delete=False))`. -/
def copy (st : ClipState) : ClipState :=
  let r := _serializeSelected st false
  _store r.2 r.1

/-- `SceneClipboard.paste`: gather the stored data; when it is not `None`,
deserialize it into the scene (with `set_selected = True`). -/
def paste (st : ClipState) : Option ClipState :=
  let r := _gatherData st
  match r.1 with
  | none => some r.2
  | some d => _deserializeData r.2 (some d) true

end SceneClipboard

/-! ## Specification-side predicates -/

/-- The spec's filter-soundness predicate (§8 *Filter soundness*, §3 payload
invariant): every edge of the payload has both endpoint sockets among the
sockets of the payload's blocks. -/
def payloadEdgesOk (d : ClipboardData) : Bool :=
  d.edges.all (fun e =>
    ((d.blocks.map (fun b => b.sockets_in ++ b.sockets_out)).flatten.contains
      e.source_socket) &&
    ((d.blocks.map (fun b => b.sockets_in ++ b.sockets_out)).flatten.contains
      e.destination_socket))

/-- The spec's store invariant (§3): the clipboard slot is absent, or holds a
payload with at least one block. -/
def storeInv (o : Option ClipboardData) : Bool :=
  o.all (fun d => !d.blocks.isEmpty)

/-- All identities of the live items of a scene. -/
def sceneIds (s : Scene) : List Nat :=
  s.blocks.map Block.id ++ s.edges.map Edge.id

/-- All identities recorded in a serialized payload. -/
def payloadIds (d : ClipboardData) : List Nat :=
  d.blocks.map BlockData.id ++ d.edges.map EdgeData.id

/-! ## Concrete scenes and payloads used by counterexamples and witnesses -/

/-- A block with sockets 1 (in) and 2 (out) at (0,0), size 10 by 10. -/
def blockA : Block := ⟨10, [⟨1⟩], [⟨2⟩], (0, 0), 10, 10⟩

/-- A block with sockets 3 (in) and 4 (out) at (20,20), size 10 by 10. -/
def blockB : Block := ⟨11, [⟨3⟩], [⟨4⟩], (20, 20), 10, 10⟩

/-- An edge from socket 7 to socket 8, both outside `blockA`. -/
def edgeBad1 : Edge := ⟨21, ⟨7⟩, ⟨8⟩⟩

/-- An edge from socket 9 to socket 6, both outside `blockA`. -/
def edgeBad2 : Edge := ⟨22, ⟨9⟩, ⟨6⟩⟩

/-- C1 input: `blockA` is selected together with two adjacent links whose
endpoints all lie outside the selection. -/
def stC1 : ClipState :=
  ⟨⟨[blockA], [edgeBad1, edgeBad2], [10], [21, 22], (0, 0), 100, []⟩, none, []⟩

/-- An edge between the sockets of `blockA` and `blockB`. -/
def edgeAB : Edge := ⟨20, ⟨2⟩, ⟨3⟩⟩

/-- C2 input: nothing but the link `edgeAB` is selected (zero selected
nodes), and the scene contains its two blocks unselected. -/
def stC2 : ClipState :=
  ⟨⟨[blockA, blockB], [edgeAB], [], [20], (0, 0), 100, []⟩, none, []⟩

/-- The §8 scenario payload: two serialized blocks at (0,0) and (20,20),
both 10 by 10, and one serialized edge between their sockets. -/
def payloadAB : ClipboardData :=
  ⟨[⟨10, [1], [2], (0, 0), 10, 10⟩, ⟨11, [3], [4], (20, 20), 10, 10⟩],
   [⟨20, 2, 3⟩]⟩

/-- A clipboard state holding `payloadAB` over an empty scene with the
pointer at (100,100). -/
def stPaste : ClipState :=
  ⟨⟨[], [], [], [], (100, 100), 1000, []⟩, some payloadAB, []⟩

/-- A state with `payloadAB` stored but nothing selected in the scene. -/
def stC10 : ClipState :=
  ⟨⟨[blockA, blockB], [edgeAB], [], [], (0, 0), 100, []⟩, some payloadAB, []⟩

/-- A state whose clipboard slot is absent. -/
def stEmptyClip : ClipState :=
  ⟨⟨[blockA], [edgeAB], [10], [], (5, 5), 100, [("c", true)]⟩, none, ["w0"]⟩

/-! ## Helper lemmas -/

/-- `paste` on an absent clipboard only records the warning. -/
lemma paste_absent (st : ClipState) (h : st.objects = none) :
    SceneClipboard.paste st
      = some { st with warnings := st.warnings ++ ["No object is loaded"] } := by
  simp [SceneClipboard.paste, SceneClipboard._gatherData, h]

/-- The block materialized by one pass of the block-creation loop of
`_deserializeData`, with the id source at `nid`. -/
def pastedBlock (off : ℚ × ℚ) (nid : Nat) (bd : BlockData) : Block :=
  { id := nid
    sockets_in :=
      ((((List.range (bd.sockets_in ++ bd.sockets_out).length).map
        (fun k => nid + 1 + k)).take bd.sockets_in.length).map Socket.mk)
    sockets_out :=
      ((((List.range (bd.sockets_in ++ bd.sockets_out).length).map
        (fun k => nid + 1 + k)).drop bd.sockets_in.length).map Socket.mk)
    position := (bd.position.1 + off.1, bd.position.2 + off.2)
    width := bd.width
    height := bd.height }

/-- The scene state after one pass of the block-creation loop. -/
def steppedScene (off : ℚ × ℚ) (sel : Bool) (s : Scene) (bd : BlockData) : Scene :=
  { s with
    blocks := s.blocks ++ [pastedBlock off s.nextId bd]
    selectedBlocks := if sel then s.selectedBlocks ++ [s.nextId]
                      else s.selectedBlocks
    nextId := s.nextId + 1 + (bd.sockets_in ++ bd.sockets_out).length }

/-- Normal form of one pass of the block-creation loop. -/
lemma createOneBlock_eq (off : ℚ × ℚ) (sel : Bool) (s : Scene)
    (hm : List (Nat × Nat)) (bd : BlockData) :
    SceneClipboard.createOneBlock off sel (s, hm) bd =
      (steppedScene off sel s bd,
       hm ++ (bd.sockets_in ++ bd.sockets_out).zip
         ((List.range (bd.sockets_in ++ bd.sockets_out).length).map
           (fun k => s.nextId + 1 + k))) := by
  simp [SceneClipboard.createOneBlock, Scene.create_block, steppedScene, pastedBlock,
    List.dropLast_concat]

/-- The block-creation loop appends one block per payload block, translated by
the offset, with strictly increasing fresh ids drawn from the id source, and
touches nothing else of the scene. -/
lemma createBlocks_spec (off : ℚ × ℚ) (sel : Bool) :
    ∀ (bs : List BlockData) (s : Scene) (hm : List (Nat × Nat)),
    ∃ nbs : List Block,
      (bs.foldl (SceneClipboard.createOneBlock off sel) (s, hm)).1.blocks
          = s.blocks ++ nbs ∧
      (bs.foldl (SceneClipboard.createOneBlock off sel) (s, hm)).1.edges = s.edges ∧
      (bs.foldl (SceneClipboard.createOneBlock off sel) (s, hm)).1.selectedEdges
          = s.selectedEdges ∧
      (bs.foldl (SceneClipboard.createOneBlock off sel) (s, hm)).1.mousePos
          = s.mousePos ∧
      (bs.foldl (SceneClipboard.createOneBlock off sel) (s, hm)).1.history
          = s.history ∧
      s.nextId ≤ (bs.foldl (SceneClipboard.createOneBlock off sel) (s, hm)).1.nextId ∧
      nbs.length = bs.length ∧
      nbs.map Block.position
        = bs.map (fun bd => (bd.position.1 + off.1, bd.position.2 + off.2)) ∧
      (∀ b ∈ nbs, s.nextId ≤ b.id ∧
        b.id < (bs.foldl (SceneClipboard.createOneBlock off sel) (s, hm)).1.nextId) ∧
      List.Pairwise (fun a b => a.id < b.id) nbs := by
  intro bs
  induction bs with
  | nil =>
    intro s hm
    exact ⟨[], by simp, by simp, by simp, by simp, by simp, Nat.le_refl _,
      rfl, rfl, by simp, by simp⟩
  | cons bd rest ih =>
    intro s hm
    rw [List.foldl_cons, createOneBlock_eq]
    obtain ⟨nbs, h1, h2, h3, h4, h5, h6, h7, h8, h9, h10⟩ :=
      ih (steppedScene off sel s bd)
        (hm ++ (bd.sockets_in ++ bd.sockets_out).zip
          ((List.range (bd.sockets_in ++ bd.sockets_out).length).map
            (fun k => s.nextId + 1 + k)))
    refine ⟨pastedBlock off s.nextId bd :: nbs, ?_, ?_, ?_, ?_, ?_, ?_, ?_, ?_, ?_, ?_⟩
    · rw [h1]; simp [steppedScene]
    · rw [h2]; simp [steppedScene]
    · rw [h3]; simp [steppedScene]
    · rw [h4]; simp [steppedScene]
    · rw [h5]; simp [steppedScene]
    · have : (steppedScene off sel s bd).nextId
        = s.nextId + 1 + (bd.sockets_in ++ bd.sockets_out).length := rfl
      omega
    · simp [h7]
    · simp [h8, pastedBlock]
    · intro b hb
      rcases List.mem_cons.mp hb with rfl | hb
      · constructor
        · exact Nat.le_refl _
        · have hlt : s.nextId < (steppedScene off sel s bd).nextId := by
            simp [steppedScene]; omega
          have : (pastedBlock off s.nextId bd).id = s.nextId := rfl
          omega
      · have := h9 b hb
        have hle : s.nextId ≤ (steppedScene off sel s bd).nextId := by
          simp [steppedScene]; omega
        omega
    · refine List.Pairwise.cons ?_ h10
      intro b hb
      have := h9 b hb
      have : (steppedScene off sel s bd).nextId
        = s.nextId + 1 + (bd.sockets_in ++ bd.sockets_out).length := rfl
      have : (pastedBlock off s.nextId bd).id = s.nextId := rfl
      omega

/-- The edge-creation loop propagates `none`. -/
lemma createOneEdge_none_fold (sel : Bool) (es : List EdgeData) :
    es.foldl (SceneClipboard.createOneEdge sel) none = none := by
  induction es with
  | nil => rfl
  | cons e rest ih => simpa [SceneClipboard.createOneEdge] using ih

/-- Normal form of one pass of the edge-creation loop when both endpoint
sockets resolve in the rebinding map. -/
lemma createOneEdge_eq (sel : Bool) (s : Scene) (hm : List (Nat × Nat))
    (ed : EdgeData) (src dst : Nat)
    (hsrc : hmGet hm ed.source_socket = some src)
    (hdst : hmGet hm ed.destination_socket = some dst) :
    SceneClipboard.createOneEdge sel (some (s, hm)) ed =
      some ({ s with
                nextId := s.nextId + 1
                selectedEdges := if sel then s.selectedEdges ++ [s.nextId]
                                 else s.selectedEdges
                edges := s.edges ++ [⟨s.nextId, ⟨src⟩, ⟨dst⟩⟩] },
            hm ++ [(ed.id, s.nextId)]) := by
  simp [SceneClipboard.createOneEdge, hsrc, hdst]

/-- One pass of the edge-creation loop aborts on an unresolvable source. -/
lemma createOneEdge_eq_none_src (sel : Bool) (s : Scene) (hm : List (Nat × Nat))
    (ed : EdgeData) (hsrc : hmGet hm ed.source_socket = none) :
    SceneClipboard.createOneEdge sel (some (s, hm)) ed = none := by
  simp [SceneClipboard.createOneEdge, hsrc]

/-- One pass of the edge-creation loop aborts on an unresolvable destination. -/
lemma createOneEdge_eq_none_dst (sel : Bool) (s : Scene) (hm : List (Nat × Nat))
    (ed : EdgeData) (hdst : hmGet hm ed.destination_socket = none) :
    SceneClipboard.createOneEdge sel (some (s, hm)) ed = none := by
  cases hsrc : hmGet hm ed.source_socket <;>
    simp [SceneClipboard.createOneEdge, hsrc, hdst]

/-- A successful edge-creation loop appends one edge per payload edge, with
strictly increasing fresh ids drawn from the id source, and touches nothing
else of the scene. -/
lemma createEdges_spec (sel : Bool) :
    ∀ (es : List EdgeData) (s : Scene) (hm : List (Nat × Nat)) (s' : Scene)
      (hm' : List (Nat × Nat)),
    es.foldl (SceneClipboard.createOneEdge sel) (some (s, hm)) = some (s', hm') →
    ∃ nes : List Edge,
      s'.blocks = s.blocks ∧
      s'.edges = s.edges ++ nes ∧
      s'.selectedBlocks = s.selectedBlocks ∧
      s'.mousePos = s.mousePos ∧
      s'.history = s.history ∧
      s.nextId ≤ s'.nextId ∧
      nes.length = es.length ∧
      (∀ e ∈ nes, s.nextId ≤ e.id ∧ e.id < s'.nextId) ∧
      List.Pairwise (fun a b => a.id < b.id) nes := by
  intro es
  induction es with
  | nil =>
    intro s hm s' hm' h
    simp only [List.foldl_nil, Option.some.injEq, Prod.mk.injEq] at h
    obtain ⟨rfl, rfl⟩ := h
    exact ⟨[], rfl, by simp, rfl, rfl, rfl, Nat.le_refl _, rfl, by simp, by simp⟩
  | cons ed rest ih =>
    intro s hm s' hm' h
    rw [List.foldl_cons] at h
    cases hsrc : hmGet hm ed.source_socket with
    | none =>
      rw [createOneEdge_eq_none_src sel s hm ed hsrc, createOneEdge_none_fold] at h
      exact absurd h (by simp)
    | some src =>
      cases hdst : hmGet hm ed.destination_socket with
      | none =>
        rw [createOneEdge_eq_none_dst sel s hm ed hdst, createOneEdge_none_fold] at h
        exact absurd h (by simp)
      | some dst =>
        rw [createOneEdge_eq sel s hm ed src dst hsrc hdst] at h
        obtain ⟨nes, g1, g2, g3, g4, g5, g6, g7, g8, g9⟩ := ih _ _ s' hm' h
        refine ⟨(⟨s.nextId, ⟨src⟩, ⟨dst⟩⟩ : Edge) :: nes,
          ?_, ?_, ?_, ?_, ?_, ?_, ?_, ?_, ?_⟩
        · rw [g1]
        · simp [g2]
        · simp [g3]
        · rw [g4]
        · rw [g5]
        · have g6h : s.nextId + 1 ≤ s'.nextId := g6
          omega
        · simp [g7]
        · intro e he
          have g6h : s.nextId + 1 ≤ s'.nextId := g6
          rcases List.mem_cons.mp he with rfl | he
          · refine ⟨Nat.le_refl _, ?_⟩
            show s.nextId < s'.nextId
            omega
          · have h1 : s.nextId + 1 ≤ e.id := (g8 e he).1
            exact ⟨by omega, (g8 e he).2⟩
        · refine List.Pairwise.cons ?_ g9
          intro e he
          have h1 : s.nextId + 1 ≤ e.id := (g8 e he).1
          show s.nextId < e.id
          omega

lemma paste_some_spec (st st' : ClipState) (d : ClipboardData)
    (hobj : st.objects = some d)
    (hp : SceneClipboard.paste st = some st') :
    ∃ c : ℚ × ℚ, SceneClipboard._find_bbox_center d.blocks = some c ∧
    ∃ (nbs : List Block) (nes : List Edge),
      st'.objects = st.objects ∧
      st'.warnings = st.warnings ∧
      st'.scene.mousePos = st.scene.mousePos ∧
      st'.scene.history
        = st.scene.history ++ [("Desiralized elements into scene", true)] ∧
      st'.scene.blocks = st.scene.blocks ++ nbs ∧
      st'.scene.edges = st.scene.edges ++ nes ∧
      nbs.length = d.blocks.length ∧
      nes.length = d.edges.length ∧
      nbs.map Block.position = d.blocks.map (fun bd =>
        (bd.position.1 + (st.scene.mousePos.1 - c.1),
         bd.position.2 + (st.scene.mousePos.2 - c.2))) ∧
      st.scene.nextId ≤ st'.scene.nextId ∧
      (∀ b ∈ nbs, st.scene.nextId ≤ b.id ∧ b.id < st'.scene.nextId) ∧
      (∀ e ∈ nes, st.scene.nextId ≤ e.id ∧ e.id < st'.scene.nextId) ∧
      (∀ b ∈ nbs, ∀ e ∈ nes, b.id < e.id) ∧
      List.Pairwise (fun a b => a.id < b.id) nbs ∧
      List.Pairwise (fun a b => a.id < b.id) nes := by
  simp only [SceneClipboard.paste, SceneClipboard._gatherData, hobj,
    Option.isNone_some, Bool.false_eq_true, if_false] at hp
  rw [SceneClipboard._deserializeData] at hp
  cases hcc : SceneClipboard._find_bbox_center d.blocks with
  | none => rw [hcc] at hp; exact absurd hp (by simp)
  | some c =>
    rw [hcc] at hp
    simp only [if_true] at hp
    obtain ⟨nbs, h1, h2, h3, h4, h5, h6, h7, h8, h9, h10⟩ :=
      createBlocks_spec (st.scene.mousePos.1 - c.1, st.scene.mousePos.2 - c.2) true
        d.blocks st.scene.clearSelection []
    cases hee : List.foldl (SceneClipboard.createOneEdge true)
        (some (List.foldl
          (SceneClipboard.createOneBlock
            (st.scene.mousePos.1 - c.1, st.scene.mousePos.2 - c.2) true)
          (st.scene.clearSelection, []) d.blocks)) d.edges with
    | none => rw [hee] at hp; exact absurd hp (by simp)
    | some r2 =>
      rw [hee] at hp
      have hst' := Option.some.inj hp
      subst hst'
      obtain ⟨nes, g1, g2, g3, g4, g5, g6, g7, g8, g9⟩ :=
        createEdges_spec true d.edges _ _ r2.1 r2.2 hee
      have h6' : st.scene.nextId
          ≤ (List.foldl
            (SceneClipboard.createOneBlock
              (st.scene.mousePos.1 - c.1, st.scene.mousePos.2 - c.2) true)
            (st.scene.clearSelection, []) d.blocks).1.nextId := h6
      have hcs : st.scene.clearSelection.nextId = st.scene.nextId := rfl
      refine ⟨c, rfl, nbs, nes, rfl, rfl, ?_, ?_, ?_, ?_, ?_, ?_, h8, ?_, ?_, ?_, ?_,
        h10, g9⟩
      · show r2.1.mousePos = st.scene.mousePos
        rw [g4, h4]
        rfl
      · show r2.1.history ++ _ = _
        rw [g5, h5]
        rfl
      · show r2.1.blocks = st.scene.blocks ++ nbs
        rw [g1, h1]
        rfl
      · show r2.1.edges = st.scene.edges ++ nes
        rw [g2, h2]
        rfl
      · exact h7
      · exact g7
      · show st.scene.nextId ≤ r2.1.nextId
        omega
      · intro b hb
        have hb2 := h9 b hb
        show st.scene.nextId ≤ b.id ∧ b.id < r2.1.nextId
        omega
      · intro e he
        have he2 := g8 e he
        show st.scene.nextId ≤ e.id ∧ e.id < r2.1.nextId
        omega
      · intro b hb e he
        have hb2 := h9 b hb
        have he2 := g8 e he
        omega

/-- Boolean no-duplicates check over id lists. -/
def nodupB : List Nat → Bool
  | [] => true
  | x :: xs => !xs.contains x && nodupB xs

/-- A strictly increasing id list has no duplicates. -/
lemma nodupB_of_pairwise_lt (l : List Nat) (h : List.Pairwise (fun a b => a < b) l) :
    nodupB l = true := by
  induction l with
  | nil => rfl
  | cons x xs ih =>
    obtain ⟨hx, hxs⟩ := List.pairwise_cons.mp h
    simp only [nodupB, Bool.and_eq_true, Bool.not_eq_true']
    refine ⟨?_, ih hxs⟩
    by_contra hc
    simp only [Bool.not_eq_false] at hc
    have hmem : x ∈ xs := by simpa using hc
    exact absurd (hx x hmem) (lt_irrefl x)


end PyFlow

/-! ## Claims -/

open PyFlow

/-- C1: the claim states that for every selection the snapshot's edge sequence
contains only links with both endpoint sockets inside the selection, even
when several invalid links are adjacent.  The code violates this: on `stC1`
(one selected block with sockets 1 and 2, two adjacent selected links with
endpoints 7→8 and 9→6), the in-place `selected_edges.remove` skips the
second link, which survives into the payload with both endpoints outside the
selection. -/
theorem C1_filter_unsound_on_adjacent_invalid_links :
    payloadEdgesOk (SceneClipboard._serializeSelected stC1 false).1 = false ∧
    (SceneClipboard._serializeSelected stC1 false).1.edges
      = [{ id := 22, source_socket := 9, destination_socket := 6 }] := by
  decide

/-- C2 counterexample: on `stC2` (a selected link, zero selected nodes) the
payload is rejected by the store, yet `cut` has deleted the selected link
from the scene — refuting "a cut whose payload is rejected deletes
nothing". -/
theorem C2_counterexample_rejected_cut_still_deletes :
    (SceneClipboard.cut stC2).objects = none ∧
    stC2.scene.edges = [edgeAB] ∧
    (SceneClipboard.cut stC2).scene.edges = [] := by
  decide

/-- C2 (amended): `cut()` takes the snapshot and then deletes the selected
items unconditionally, inside the serialize step and before the store runs;
the stored payload is the one computed from the pre-delete selection (the
same payload `copy()` would store), and a rejected payload does not prevent
the deletion. -/
theorem C2_cut_deletes_unconditionally_before_store (st : ClipState) :
    (SceneClipboard.cut st).scene = st.scene.deleteSelected ∧
    (SceneClipboard.cut st).objects = (SceneClipboard.copy st).objects ∧
    (SceneClipboard.cut st).warnings = st.warnings := by
  unfold SceneClipboard.cut SceneClipboard.copy SceneClipboard._serializeSelected
    SceneClipboard._store
  simp only
  split <;> simp

/-- C3: `_store` with an empty block sequence leaves the store absent, with at
least one block stores exactly that payload; hence the store never holds a
zero-node payload. -/
theorem C3_store_rejects_empty_accepts_nonempty (st : ClipState)
    (data : ClipboardData) :
    (SceneClipboard._store st data).objects
      = (if data.blocks.isEmpty then none else some data) ∧
    storeInv (SceneClipboard._store st data).objects = true := by
  unfold SceneClipboard._store storeInv
  split <;> simp_all

/-- C7: when the clipboard store is absent, `paste()` emits the non-fatal
warning and performs no scene mutation at all: the returned state differs
from the input only by the recorded warning, so nodes, links, selection and
history are untouched. -/
theorem C7_paste_empty_clipboard_warns_without_mutation (st : ClipState)
    (h : st.objects = none) :
    SceneClipboard.paste st
      = some { st with warnings := st.warnings ++ ["No object is loaded"] } :=
  paste_absent st h

/-- C7 witness: the empty-clipboard state `stEmptyClip`. -/
theorem C7_witness :
    SceneClipboard.paste stEmptyClip
      = some { stEmptyClip with
               warnings := stEmptyClip.warnings ++ ["No object is loaded"] } :=
  C7_paste_empty_clipboard_warns_without_mutation stEmptyClip rfl

/-- C9: `copy()` mutates nothing observable but the clipboard slot: the scene
(its blocks, edges, selection, pointer, id source and history) and the
warnings are exactly those of the input state. -/
theorem C9_copy_never_mutates_scene (st : ClipState) :
    (SceneClipboard.copy st).scene = st.scene ∧
    (SceneClipboard.copy st).warnings = st.warnings := by
  unfold SceneClipboard.copy SceneClipboard._serializeSelected SceneClipboard._store
  simp only
  split <;> simp

/-- C10: `copy()` or `cut()` with zero selected nodes resets the store to
absent, discarding any previously stored payload. -/
theorem C10_empty_selection_discards_stored_payload (st : ClipState)
    (h : st.scene.sortedSelectedItems.1 = []) :
    (SceneClipboard.copy st).objects = none ∧
    (SceneClipboard.cut st).objects = none := by
  unfold SceneClipboard.copy SceneClipboard.cut SceneClipboard._serializeSelected
    SceneClipboard._store
  simp [h]

/-- C10 witness: `stC10` holds a stored payload and has an empty selection;
both `copy` and `cut` reset the store to absent. -/
theorem C10_witness :
    stC10.objects = some payloadAB ∧
    (SceneClipboard.copy stC10).objects = none ∧
    (SceneClipboard.cut stC10).objects = none :=
  ⟨rfl, (C10_empty_selection_discards_stored_payload stC10 (by decide)).1,
        (C10_empty_selection_discards_stored_payload stC10 (by decide)).2⟩

/-- The result of pasting `stPaste` (used as a concrete witness input). -/
def stPasteResult : ClipState := (SceneClipboard.paste stPaste).getD stPaste

/-- The bbox center of the §8 payload is (15,15). -/
lemma bbox_center_payloadAB :
    SceneClipboard._find_bbox_center payloadAB.blocks = some ((15 : ℚ), (15 : ℚ)) := by
  norm_num [SceneClipboard._find_bbox_center, payloadAB]

/-- C4: for a stored payload and pointer position, every pasted block's
position is its original serialized position translated by
`(pointer - bbox center)`, with the center computed by `_find_bbox_center`
(the min/max bounding box of positions and extents); the pre-existing blocks
are untouched, so relative offsets between pasted blocks equal those between
the originals. -/
theorem C4_paste_positions_are_pointer_centered (st st' : ClipState)
    (d : ClipboardData) (c : ℚ × ℚ)
    (hobj : st.objects = some d)
    (hc : SceneClipboard._find_bbox_center d.blocks = some c)
    (hp : SceneClipboard.paste st = some st') :
    st'.scene.blocks.take st.scene.blocks.length = st.scene.blocks ∧
    (st'.scene.blocks.drop st.scene.blocks.length).map Block.position
      = d.blocks.map (fun bd =>
        (bd.position.1 + (st.scene.mousePos.1 - c.1),
         bd.position.2 + (st.scene.mousePos.2 - c.2))) := by
  obtain ⟨c2, hc2, nbs, nes, o1, o2, o3, o4, o5, o6, o7, o8, o9, o10, o11, o12,
    o13, o14, o15⟩ := paste_some_spec st st' d hobj hp
  rw [hc] at hc2
  obtain rfl := Option.some.inj hc2
  constructor
  · rw [o5]
    exact List.take_left st.scene.blocks nbs
  · rw [o5, List.drop_left]
    exact o9

/-- C4 witness: pasting the §8 scenario payload (blocks at (0,0) and (20,20),
both 10 by 10, bbox center (15,15)) with the pointer at (100,100) places the
new blocks at (85,85) and (105,105). -/
theorem C4_witness :
    stPasteResult.scene.blocks.take stPaste.scene.blocks.length
      = stPaste.scene.blocks ∧
    (stPasteResult.scene.blocks.drop stPaste.scene.blocks.length).map
        Block.position
      = payloadAB.blocks.map (fun bd =>
        (bd.position.1 + (stPaste.scene.mousePos.1 - (15 : ℚ)),
         bd.position.2 + (stPaste.scene.mousePos.2 - (15 : ℚ)))) :=
  C4_paste_positions_are_pointer_centered stPaste stPasteResult payloadAB
    ((15 : ℚ), (15 : ℚ)) rfl bbox_center_payloadAB rfl

/-- C5: a successful paste of a stored payload with `k` blocks and `m` edges,
from a scene whose existing ids and whose payload's serialized ids all lie
below the fresh-id source, creates exactly `k` new blocks and `m` new edges,
whose identities are pairwise distinct and distinct from all prior scene ids
and all serialized payload ids. -/
theorem C5_paste_counts_and_fresh_identities (st st' : ClipState)
    (d : ClipboardData)
    (hobj : st.objects = some d)
    (hp : SceneClipboard.paste st = some st')
    (hwf : ∀ i ∈ sceneIds st.scene ++ payloadIds d, i < st.scene.nextId) :
    st'.scene.blocks.length = st.scene.blocks.length + d.blocks.length ∧
    st'.scene.edges.length = st.scene.edges.length + d.edges.length ∧
    nodupB ((st'.scene.blocks.drop st.scene.blocks.length).map Block.id ++
      (st'.scene.edges.drop st.scene.edges.length).map Edge.id) = true ∧
    ((st'.scene.blocks.drop st.scene.blocks.length).map Block.id ++
      (st'.scene.edges.drop st.scene.edges.length).map Edge.id).all
        (fun i => !((sceneIds st.scene ++ payloadIds d).contains i)) = true := by
  obtain ⟨c, hc, nbs, nes, o1, o2, o3, o4, o5, o6, o7, o8, o9, o10, o11, o12,
    o13, o14, o15⟩ := paste_some_spec st st' d hobj hp
  have hdropb : st'.scene.blocks.drop st.scene.blocks.length = nbs := by
    rw [o5]; exact List.drop_left st.scene.blocks nbs
  have hdrope : st'.scene.edges.drop st.scene.edges.length = nes := by
    rw [o6]; exact List.drop_left st.scene.edges nes
  refine ⟨by rw [o5]; simp [o7], by rw [o6]; simp [o8], ?_, ?_⟩
  · rw [hdropb, hdrope]
    refine nodupB_of_pairwise_lt _ (List.pairwise_append.mpr ⟨?_, ?_, ?_⟩)
    · exact List.pairwise_map.mpr o14
    · exact List.pairwise_map.mpr o15
    · intro a ha b hb
      obtain ⟨x, hx, rfl⟩ := List.mem_map.mp ha
      obtain ⟨y, hy, rfl⟩ := List.mem_map.mp hb
      exact o13 x hx y hy
  · rw [hdropb, hdrope]
    rw [List.all_eq_true]
    intro i hi
    have hfresh : st.scene.nextId ≤ i := by
      rcases List.mem_append.mp hi with hi | hi
      · obtain ⟨x, hx, rfl⟩ := List.mem_map.mp hi
        exact (o11 x hx).1
      · obtain ⟨y, hy, rfl⟩ := List.mem_map.mp hi
        exact (o12 y hy).1
    have hnotold : ¬ i ∈ sceneIds st.scene ++ payloadIds d := by
      intro hmem
      exact absurd (hwf i hmem) (by omega)
    simpa using hnotold

/-- C5 witness: pasting `payloadAB` (2 blocks, 1 edge) into the empty scene of
`stPaste` (id source 1000, all prior and serialized ids below it) adds
exactly 2 blocks and 1 edge, with pairwise distinct ids not among the old
ones. -/
theorem C5_witness :
    stPasteResult.scene.blocks.length
      = stPaste.scene.blocks.length + payloadAB.blocks.length ∧
    stPasteResult.scene.edges.length
      = stPaste.scene.edges.length + payloadAB.edges.length ∧
    nodupB ((stPasteResult.scene.blocks.drop stPaste.scene.blocks.length).map
        Block.id ++
      (stPasteResult.scene.edges.drop stPaste.scene.edges.length).map Edge.id)
        = true ∧
    ((stPasteResult.scene.blocks.drop stPaste.scene.blocks.length).map
        Block.id ++
      (stPasteResult.scene.edges.drop stPaste.scene.edges.length).map
        Edge.id).all
        (fun i => !((sceneIds stPaste.scene ++ payloadIds payloadAB).contains i))
        = true :=
  C5_paste_counts_and_fresh_identities stPaste stPasteResult payloadAB
    rfl rfl (by decide)

/-- C6: `_gatherData` returns the stored payload without clearing or mutating
the store, and `paste` leaves the store's contents exactly as they were, so
the same stored content can be pasted repeatedly. -/
theorem C6_retrieve_and_paste_preserve_store (st : ClipState) :
    (SceneClipboard._gatherData st).1 = st.objects ∧
    (SceneClipboard._gatherData st).2.objects = st.objects ∧
    ∀ st', SceneClipboard.paste st = some st' → st'.objects = st.objects := by
  refine ⟨?_, ?_, ?_⟩
  · cases hobj : st.objects <;> simp [SceneClipboard._gatherData, hobj]
  · cases hobj : st.objects <;> simp [SceneClipboard._gatherData, hobj]
  · intro st' hp
    cases hobj : st.objects with
    | none =>
      rw [paste_absent st hobj] at hp
      obtain rfl := Option.some.inj hp
      exact hobj
    | some d =>
      obtain ⟨c, hc, nbs, nes, o1, _⟩ := paste_some_spec st st' d hobj hp
      exact o1.trans hobj

/-- C6 witness: pasting the stored `payloadAB` leaves the store holding
exactly the same payload. -/
theorem C6_witness :
    (SceneClipboard._gatherData stPaste).1 = stPaste.objects ∧
    (SceneClipboard._gatherData stPaste).2.objects = stPaste.objects ∧
    stPasteResult.objects = stPaste.objects :=
  ⟨(C6_retrieve_and_paste_preserve_store stPaste).1,
   (C6_retrieve_and_paste_preserve_store stPaste).2.1,
   (C6_retrieve_and_paste_preserve_store stPaste).2.2 stPasteResult rfl⟩

/-- C8: the bbox-center computation errors exactly on an empty block sequence,
and every call reachable through `paste()` satisfies its non-emptiness
precondition: under the store invariant a stored payload has a non-empty
block sequence, so `_find_bbox_center` succeeds on it; and the invariant is
maintained because `cut` and `copy` only ever store through `_store`. -/
theorem C8_bbox_center_precondition_reachable_calls (st : ClipState)
    (d : ClipboardData)
    (hobj : st.objects = some d)
    (hinv : storeInv st.objects = true) :
    SceneClipboard._find_bbox_center ([] : List BlockData) = none ∧
    d.blocks.isEmpty = false ∧
    (SceneClipboard._find_bbox_center d.blocks).isSome = true ∧
    (∀ st2 : ClipState, storeInv (SceneClipboard.cut st2).objects = true ∧
      storeInv (SceneClipboard.copy st2).objects = true) := by
  rw [hobj] at hinv
  simp only [storeInv, Option.all_some, Bool.not_eq_true'] at hinv
  refine ⟨rfl, hinv, ?_, ?_⟩
  · cases hd : d.blocks with
    | nil => rw [hd] at hinv; simp [List.isEmpty] at hinv
    | cons b bs => simp [SceneClipboard._find_bbox_center]
  · intro st2
    constructor
    · unfold SceneClipboard.cut SceneClipboard._serializeSelected SceneClipboard._store
      simp only
      split <;> simp_all [storeInv]
    · unfold SceneClipboard.copy SceneClipboard._serializeSelected SceneClipboard._store
      simp only
      split <;> simp_all [storeInv]

/-- C8 witness: `stPaste` satisfies the store invariant with the non-empty
`payloadAB` stored; the bbox center of its blocks exists, and the invariant
is preserved by `cut`/`copy` on the concrete state `stC2`. -/
theorem C8_witness :
    SceneClipboard._find_bbox_center ([] : List BlockData) = none ∧
    payloadAB.blocks.isEmpty = false ∧
    (SceneClipboard._find_bbox_center payloadAB.blocks).isSome = true ∧
    storeInv (SceneClipboard.cut stC2).objects = true ∧
    storeInv (SceneClipboard.copy stC2).objects = true :=
  ⟨(C8_bbox_center_precondition_reachable_calls stPaste payloadAB rfl
      (by decide)).1,
   (C8_bbox_center_precondition_reachable_calls stPaste payloadAB rfl
      (by decide)).2.1,
   (C8_bbox_center_precondition_reachable_calls stPaste payloadAB rfl
      (by decide)).2.2.1,
   ((C8_bbox_center_precondition_reachable_calls stPaste payloadAB rfl
      (by decide)).2.2.2 stC2).1,
   ((C8_bbox_center_precondition_reachable_calls stPaste payloadAB rfl
      (by decide)).2.2.2 stC2).2⟩
